import Mathlib

/-
Verification development for the AI Newsletter Bot repository
(src/bot.py, src/config.py, src/main.py).

The pipeline is shallowly embedded: Python dict-shaped articles become the
Article structure with Option-valued fields (a missing dict key is none,
and the empty string is falsy exactly as in Python truth tests); fallible
calls are modelled with Except over an explicit PyExn exception type; the
network-facing parts (the Tavily search requests, the two Azure OpenAI
calls, the Resend delivery call) enter as explicit parameters holding the
outcome the external service produced, so that the pure data-shaping logic
of the repository is embedded exactly.
-/

namespace NewsBot

/-- Python exceptions that the embedded code distinguishes: `ValueError`
(the only class main.py catches), `AttributeError` (raised by a failed
attribute lookup), and everything else. -/
inductive PyExn where
  | valueError (msg : String)
  | attributeError (msg : String)
  | other (msg : String)
deriving DecidableEq

/-- An article dict as produced by the Tavily search and enriched by the
scorer.  Each field models one dict key; none models an absent key.
Scores are modelled as rationals (the scoring schema asks for a numeric
score in [0,10]). -/
structure Article where
  url : Option String
  title : Option String
  rawContent : Option String
  score : Option ℚ
  reason : Option String
deriving DecidableEq

/-- Article with only a url, as the collector-level claims need. -/
def mkArticle (u : String) : Article :=
  { url := some u, title := none, rawContent := none, score := none, reason := none }

/-- Article with a title tag and a score, as the ranking claims need. -/
def mkScored (t : String) (q : ℚ) : Article :=
  { url := none, title := some t, rawContent := none, score := some q, reason := none }

/-- Python truthiness of an optional string: None and the empty string are
falsy. -/
def truthy : Option String → Bool
  | none => false
  | some s => s ≠ ""

/-! ### Configuration (src/config.py) and orchestrator construction (C1)

NewsletterConfig mirrors the dataclass field for field.  Python attribute
lookup on a dataclass instance succeeds exactly on the declared fields;
getattr embeds that lookup, returning none (an AttributeError) for any
other name. -/

/-- A Python attribute value of the config record: either a string field
or the list-of-strings field to_emails. -/
inductive PyValue where
  | str (s : String)
  | strList (l : List String)
deriving DecidableEq

/-- The NewsletterConfig dataclass of src/config.py: six required fields
and five optional fields with defaults.  There is no trusted_news_domains
field. -/
structure NewsletterConfig where
  tavily_api_key : String
  azure_endpoint : String
  azure_api_key : String
  resend_api_key : String
  from_email : String
  to_emails : List String
  azure_deployment : String
  azure_api_version : String
  ai_interests : String
  target_audience : String
  newsletter_name : String

/-- Python attribute lookup on a NewsletterConfig instance: the declared
dataclass fields resolve to their values, any other attribute name fails
(AttributeError). -/
def NewsletterConfig.getattr (c : NewsletterConfig) (a : String) : Option PyValue :=
  if a = "tavily_api_key" then some (.str c.tavily_api_key)
  else if a = "azure_endpoint" then some (.str c.azure_endpoint)
  else if a = "azure_api_key" then some (.str c.azure_api_key)
  else if a = "resend_api_key" then some (.str c.resend_api_key)
  else if a = "from_email" then some (.str c.from_email)
  else if a = "to_emails" then some (.strList c.to_emails)
  else if a = "azure_deployment" then some (.str c.azure_deployment)
  else if a = "azure_api_version" then some (.str c.azure_api_version)
  else if a = "ai_interests" then some (.str c.ai_interests)
  else if a = "target_audience" then some (.str c.target_audience)
  else if a = "newsletter_name" then some (.str c.newsletter_name)
  else none

/-- AINewsletterBot.__init__ (src/bot.py lines 336-340): with a (truthy)
config argument it evaluates self.config.trusted_news_domains to build the
collector.  The embedded init performs that attribute lookup; on failure
the constructor raises and no bot value exists, so run_newsletter and
test_run are unreachable through it. -/
def botInit (c : NewsletterConfig) : Except PyExn Unit :=
  match c.getattr "trusted_news_domains" with
  | some _ => .ok ()
  | none => .error (.attributeError "trusted_news_domains")

/-! ### Command surface (src/main.py, C10) -/

/-- Which branch of main's argument dispatch executes. -/
inductive CliAction where
  | runOnce
  | testRunMode
  | usageExit
deriving DecidableEq

/-- The argument dispatch of main (src/main.py lines 27-35): the --once
membership test comes first, then --test, else the usage message is
printed and the process exits with status 1 (usageExit). -/
def mainDispatch (args : List String) : CliAction :=
  if "--once" ∈ args then .runOnce
  else if "--test" ∈ args then .testRunMode
  else .usageExit

/-! ### Collector (src/bot.py, TavilyCollector)

The network fan-out is external: search_news is embedded as a function of
the family of per-query result lists that asyncio.gather produced (a
failed query contributes the empty list, as _fetch_for_query returns []).
What remains is the pure data shaping: merge in query order, filter by
trusted domain, deduplicate by URL. -/

/-- Character scan behind urllib.parse.urlparse: find the first colon and,
when two slashes follow it, return the remainder (the authority and the
rest of the URL).  Scheme-character validation of urlparse is elided; the
URLs this program handles always carry a plain scheme. -/
def afterSchemeSlashes : List Char → Option (List Char)
  | [] => none
  | ':' :: '/' :: '/' :: rest => some rest
  | ':' :: _ => none
  | _ :: rest => afterSchemeSlashes rest

/-- A character that ends the netloc portion of a URL. -/
def netlocStop (c : Char) : Bool :=
  c != '/' && c != '?' && c != '#'

/-- urllib.parse.urlparse(url).netloc as used by _filter_by_domain: the
part after the scheme's // (or after a leading //) up to the first slash,
question mark or hash; the empty string when the URL has no //.  The
netloc is not lowercased, so comparison stays case-sensitive. -/
def netloc (url : String) : String :=
  match url.toList with
  | '/' :: '/' :: rest => String.mk (rest.takeWhile netlocStop)
  | cs =>
    match afterSchemeSlashes cs with
    | some rest => String.mk (rest.takeWhile netlocStop)
    | none => ""

/-- The www-prefix strip of _filter_by_domain: domain[4:] when the domain
starts with www. -/
def stripWww (d : String) : String :=
  match d.toList with
  | 'w' :: 'w' :: 'w' :: '.' :: rest => String.mk rest
  | _ => d

/-- The retention test of _filter_by_domain for one article, as a Boolean
predicate: the url key is present and truthy, and the hostname with www.
stripped is a member of the trusted list (exact string comparison). -/
def trustedPred (trusted : List String) (a : Article) : Bool :=
  match a.url with
  | some u => decide (u ≠ "") && decide (stripWww (netloc u) ∈ trusted)
  | none => false

/-- The accumulation loop of _filter_by_domain (src/bot.py lines 106-123):
articles whose url is falsy are skipped, the rest are kept exactly when
their stripped hostname is trusted. -/
def filterLoop (trusted : List String) : List Article → List Article
  | [] => []
  | a :: rest =>
    match a.url with
    | some u =>
      if u ≠ "" then
        if stripWww (netloc u) ∈ trusted then a :: filterLoop trusted rest
        else filterLoop trusted rest
      else filterLoop trusted rest
    | none => filterLoop trusted rest

/-- _filter_by_domain (src/bot.py lines 100-123): with no trusted domains
configured (None or empty, both embedded as []) the input is returned
unchanged; otherwise the loop above runs. -/
def filter_by_domain (trusted : List String) (articles : List Article) : List Article :=
  if trusted = [] then articles else filterLoop trusted articles

/-- The loop of _deduplicate (src/bot.py lines 88-98) with its seen_urls
set made explicit: an article is kept when its url is truthy and not yet
seen; kept urls are added to the set. -/
def dedupeAux (seen : List String) : List Article → List Article
  | [] => []
  | a :: rest =>
    match a.url with
    | some u =>
      if u ≠ "" ∧ u ∉ seen then a :: dedupeAux (u :: seen) rest
      else dedupeAux seen rest
    | none => dedupeAux seen rest

/-- _deduplicate (src/bot.py lines 88-98): the loop started with an empty
seen set. -/
def deduplicate (articles : List Article) : List Article :=
  dedupeAux [] articles

/-- The key on which _deduplicate deduplicates: the article's url when
present and truthy, none otherwise (such articles are dropped). -/
def goodUrl (a : Article) : Option String :=
  match a.url with
  | some u => if u = "" then none else some u
  | none => none

/-- The pure tail of search_news (src/bot.py lines 44-58): extend the
per-query result lists in query order, filter by trusted domain, then
deduplicate — in that order, as the source does. -/
def search_news (perQueryResults : List (List Article)) (trusted : List String) : List Article :=
  deduplicate (filter_by_domain trusted perQueryResults.flatten)

/-- Modelled from the spec's words, for the C3 refinement comparison: the
spec describes search_news as concatenating in query order, deduplicating
by exact URL keeping first occurrences, and only then — and only when a
non-empty trusted set is configured — filtering by trusted domain, the
deduplicated list passing through unchanged otherwise. -/
def search_news_spec_order (perQueryResults : List (List Article)) (trusted : List String) : List Article :=
  let deduped := deduplicate perQueryResults.flatten
  if trusted = [] then deduped else filterLoop trusted deduped

/-! ### Processor (src/bot.py, GPTProcessor)

The two Azure OpenAI calls are external.  The scoring call's outcome is
embedded as an optional list of parsed score entries: none when the call
raised or its reply failed JSON parsing (both are caught by the same
except clause of _score_articles), some entries when a scores list was
parsed.  Entries that are not dicts or lack an id key are skipped by the
merge loop without any effect, so the embedded entry list holds the
well-formed entries.  The generation call is embedded as an abstract
function from the top articles to the optional content it produced. -/

/-- One parsed element of the scoring reply's scores list: the id is an
arbitrary integer (the range check happens in the merge loop); score and
reason default to 0 and the empty string when absent. -/
structure ScoreEntry where
  id : Int
  score : Option ℚ
  reason : Option String
deriving DecidableEq

/-- The sort key of _score_articles, x.get with default 0: an article
without a score key counts as 0. -/
def getScore (a : Article) : ℚ :=
  a.score.getD 0

/-- The comparator under which the stable descending sort of
_score_articles (list.sort with reverse=True) is a stable ascending
mergeSort: a may stay before b exactly when b's score does not exceed
a's. -/
def scoreLe (a b : Article) : Bool :=
  decide (getScore b ≤ getScore a)

/-- The in-place articles.sort(key=score, reverse=True) of
_score_articles: a stable descending sort by score.  mergeSort is stable,
matching CPython's sort. -/
def rankArticles (l : List Article) : List Article :=
  l.mergeSort scoreLe

/-- One iteration of the merge loop of _score_articles (src/bot.py lines
192-197): when the entry's id lies in [0, len(articles)), the article at
that index receives the entry's score (default 0) and reason (default
empty); otherwise nothing happens. -/
def applyEntry (arts : List Article) (e : ScoreEntry) : List Article :=
  if 0 ≤ e.id ∧ e.id < arts.length then
    match arts[e.id.toNat]? with
    | some a =>
      arts.set e.id.toNat
        { a with score := some (e.score.getD 0), reason := some (e.reason.getD "") }
    | none => arts
  else arts

/-- The whole merge loop: entries applied in reply order (a later entry
with the same id overwrites an earlier one). -/
def applyScores (entries : List ScoreEntry) (arts : List Article) : List Article :=
  entries.foldl applyEntry arts

/-- _score_articles (src/bot.py lines 160-203) after the model call: on a
parsed reply the scores are merged by index and the list stably sorted
descending; when the call failed or the reply was unparseable the article
list is returned unscored in its original order. -/
def score_articles (reply : Option (List ScoreEntry)) (articles : List Article) : List Article :=
  match reply with
  | some entries => rankArticles (applyScores entries articles)
  | none => articles

/-- One element of the generated top_stories array. -/
structure Story where
  headline : Option String
  summary : Option String
  link : Option String
deriving DecidableEq

/-- The newsletter content dict produced by _generate_newsletter;
Option-valued fields model possibly-absent keys, and the all-absent value
models the empty dict. -/
structure NewsletterData where
  openingHook : Option String
  topStories : Option (List Story)
  toolOfTheDay : Option String
  closingThought : Option String
  originalArticles : Option (List Article)
deriving DecidableEq

/-- process_articles (src/bot.py lines 145-158): empty input yields the
empty dict (none); otherwise the scored-and-ranked list is truncated to
limit, an empty truncation yields none, and otherwise generation runs on
exactly that truncated list. -/
def process_articles (reply : Option (List ScoreEntry))
    (gen : List Article → Option NewsletterData)
    (articles : List Article) (limit : Nat) : Option NewsletterData :=
  if articles = [] then none
  else if (score_articles reply articles).take limit = [] then none
  else gen ((score_articles reply articles).take limit)

/-- A concrete generation outcome that records the article list it was
given, used to witness which list reaches generation. -/
def genCapture : List Article → Option NewsletterData := fun l =>
  some { openingHook := none, topStories := some [], toolOfTheDay := none,
         closingThought := none, originalArticles := some l }

/-! ### Emailer (src/bot.py, ResendEmailer)

send_newsletter's outbound call is external; its outcome enters as an
Except parameter (ok with a message id, or error when resend raised).
The embedded result pairs the returned boolean with the number of
outbound delivery calls performed, so "no delivery attempted" is
expressible. -/

/-- send_newsletter (src/bot.py lines 259-284): a falsy sender or an
empty recipient list fails before anything else; content that is empty or
lacks the top_stories key fails next; only then is the single provider
call made, whose failure is caught and surfaced as false. -/
def send_newsletter (fromEmail : Option String) (toEmails : List String)
    (d : NewsletterData) (providerResult : Except PyExn String) : Bool × Nat :=
  if ¬ truthy fromEmail ∨ toEmails = [] then (false, 0)
  else if d.topStories = none then (false, 0)
  else
    match providerResult with
    | .ok _ => (true, 1)
    | .error _ => (false, 1)

/-! ### Orchestrator (src/bot.py, AINewsletterBot; src/main.py)

The three stages enter as parameters carrying their outcomes: the
collector result, the processor as a function of the collected articles,
and the emailer as a function of the produced content.  Any of them may
raise (the error side of Except). -/

/-- The body of run_newsletter (src/bot.py lines 345-361), before its
surrounding try/except: empty collection and empty content short-circuit
to false, otherwise the emailer's boolean is returned; an exception in
any stage propagates out of the body. -/
def run_newsletter_body (collect : Except PyExn (List Article))
    (proc : List Article → Except PyExn (Option NewsletterData))
    (send : NewsletterData → Except PyExn Bool) : Except PyExn Bool := do
  let articles ← collect
  if articles = [] then return false
  match ← proc articles with
  | none => return false
  | some d => send d

/-- run_newsletter (src/bot.py lines 342-364): the body wrapped in the
top-level try/except that logs critically and returns False on any
exception. -/
def run_newsletter (collect : Except PyExn (List Article))
    (proc : List Article → Except PyExn (Option NewsletterData))
    (send : NewsletterData → Except PyExn Bool) : Bool :=
  match run_newsletter_body collect proc send with
  | .ok b => b
  | .error _ => false

/-- test_run (src/bot.py lines 366-395): the preview mode pipeline.  It
has no try/except of its own, so a stage exception propagates; the
preview printing carries no further control flow and is elided. -/
def test_run (collect : Except PyExn (List Article))
    (proc : List Article → Except PyExn (Option NewsletterData)) : Except PyExn Unit := do
  let articles ← collect
  if articles = [] then return
  match ← proc articles with
  | none => return
  | some _ => return

/-- Whether an exception is a ValueError, the only class the handlers in
src/main.py catch. -/
def isValueError : PyExn → Bool
  | .valueError _ => true
  | _ => false

/-- How the process ends as seen from src/main.py: a normal finish, the
nonzero exit of the ValueError handler, or a crash with an uncaught
exception. -/
inductive MainOutcome where
  | finished
  | exitedNonZero
  | crashed (e : PyExn)
deriving DecidableEq

/-- The exception boundary of src/main.py (lines 23-38 and 43-48) around
a dispatched run: only ValueError is caught (printing the configuration
error and exiting 1); any other exception escapes and crashes the
process. -/
def main_with (r : Except PyExn Unit) : MainOutcome :=
  match r with
  | .ok _ => .finished
  | .error e => if isValueError e then .exitedNonZero else .crashed e

/-- A processor outcome that produces no content, used to exhibit a
concrete preview run. -/
def procNone : List Article → Except PyExn (Option NewsletterData) :=
  fun _ => Except.ok none

end NewsBot

namespace NewsBot

/-- C1: every NewsletterConfig value (in particular any value from_env
returns) makes AINewsletterBot.__init__ raise AttributeError, because it
reads the nonexistent trusted_news_domains field; hence no bot is
constructed from such a config and neither pipeline entry point is
reachable through one. -/
theorem bot_init_attribute_error :
    ∀ c : NewsletterConfig,
      botInit c = .error (.attributeError "trusted_news_domains") := by
  intro c
  rfl

/-- C10: on the command surface --once takes precedence (with both flags
present the delivery branch runs and the preview branch does not), and the
usage-and-nonzero-exit branch is taken exactly when neither flag is
present. -/
theorem cli_once_precedence :
    ∀ args : List String,
      ("--once" ∈ args → mainDispatch args = .runOnce)
      ∧ (mainDispatch args = .testRunMode ↔ ("--once" ∉ args ∧ "--test" ∈ args))
      ∧ (mainDispatch args = .usageExit ↔ ("--once" ∉ args ∧ "--test" ∉ args)) := by
  intro args
  unfold mainDispatch
  by_cases h1 : "--once" ∈ args <;> by_cases h2 : "--test" ∈ args <;>
    simp [h1, h2]

/-- C10 witness: with both flags present the dispatch runs the delivery
pipeline branch. -/
theorem cli_once_precedence_witness :
    mainDispatch ["--once", "--test"] = .runOnce :=
  (cli_once_precedence ["--once", "--test"]).1 (by decide)

/-- The accumulation loop of _filter_by_domain is the pointwise filter by
the retention predicate. -/
theorem filterLoop_eq_filter (trusted : List String) (l : List Article) :
    filterLoop trusted l = l.filter (trustedPred trusted) := by
  induction l with
  | nil => rfl
  | cons a rest ih =>
    cases h : a.url with
    | none => simp [filterLoop, List.filter_cons, trustedPred, h, ih]
    | some u =>
      by_cases h1 : u = ""
      · simp [filterLoop, List.filter_cons, trustedPred, h, h1, ih]
      · by_cases h2 : stripWww (netloc u) ∈ trusted
        · simp [filterLoop, List.filter_cons, trustedPred, h, h1, h2, ih]
        · simp [filterLoop, List.filter_cons, trustedPred, h, h1, h2, ih]

/-- C6: with an empty (or absent) trusted set, domain filtering returns
the input unchanged; with a non-empty set an article is retained exactly
when its url is present and truthy and the hostname with the leading www.
stripped is a member of the set under case-sensitive string comparison;
in particular https://www.example.com/x is retained and https://other.com/y
dropped for the trusted set containing example.com. -/
theorem domain_filtering_spec :
    ∀ (trusted : List String) (l : List Article),
      filter_by_domain [] l = l
      ∧ (trusted ≠ [] →
          filter_by_domain trusted l = l.filter (trustedPred trusted))
      ∧ filter_by_domain ["example.com"]
          [mkArticle ("https://www.example.com/x"), mkArticle ("https://other.com/y")]
          = [mkArticle ("https://www.example.com/x")] := by
  intro trusted l
  refine ⟨by simp [filter_by_domain], fun h => ?_, by decide⟩
  simp [filter_by_domain, h, filterLoop_eq_filter]

/-- C6 witness: the non-empty-trusted-set branch evaluated on the two
concrete articles of the claim. -/
theorem domain_filtering_spec_witness :
    filter_by_domain ["example.com"]
        [mkArticle ("https://www.example.com/x"), mkArticle ("https://other.com/y")]
      = List.filter (trustedPred ["example.com"])
          [mkArticle ("https://www.example.com/x"), mkArticle ("https://other.com/y")] :=
  (domain_filtering_spec ["example.com"]
    [mkArticle ("https://www.example.com/x"), mkArticle ("https://other.com/y")]).2.1
    (by decide)

/-- The deduplication loop only ever drops elements, so relative input
order is preserved. -/
theorem dedupeAux_sublist (seen : List String) (l : List Article) :
    List.Sublist (dedupeAux seen l) l := by
  induction l generalizing seen with
  | nil => simp [dedupeAux]
  | cons a rest ih =>
    cases h : a.url with
    | none =>
      simp only [dedupeAux, h]
      exact (ih seen).cons a
    | some u =>
      simp only [dedupeAux, h]
      by_cases hc : u ≠ "" ∧ u ∉ seen
      · rw [if_pos hc]; exact (ih (u :: seen)).cons₂ a
      · rw [if_neg hc]; exact (ih seen).cons a

/-- Every output of the deduplication loop has a truthy url that was not
in the seen set the loop started from. -/
theorem mem_dedupeAux {b : Article} (seen : List String) (l : List Article)
    (hb : b ∈ dedupeAux seen l) : ∃ u, goodUrl b = some u ∧ u ∉ seen := by
  induction l generalizing seen with
  | nil => simp [dedupeAux] at hb
  | cons a rest ih =>
    cases h : a.url with
    | none =>
      simp only [dedupeAux, h] at hb
      exact ih seen hb
    | some u =>
      simp only [dedupeAux, h] at hb
      by_cases hc : u ≠ "" ∧ u ∉ seen
      · rw [if_pos hc] at hb
        rcases List.mem_cons.mp hb with rfl | hb'
        · exact ⟨u, by simp [goodUrl, h, hc.1], hc.2⟩
        · obtain ⟨u', hu', hn⟩ := ih (u :: seen) hb'
          exact ⟨u', hu', fun hmem => hn (List.mem_cons_of_mem _ hmem)⟩
      · rw [if_neg hc] at hb
        exact ih seen hb

/-- Every output of the deduplication loop is the first occurrence of its
url in the loop's input. -/
theorem dedupeAux_find? {b : Article} (seen : List String) (l : List Article)
    (hb : b ∈ dedupeAux seen l) :
    l.find? (fun x => decide (goodUrl x = goodUrl b)) = some b := by
  induction l generalizing seen with
  | nil => simp [dedupeAux] at hb
  | cons a rest ih =>
    cases h : a.url with
    | none =>
      simp only [dedupeAux, h] at hb
      obtain ⟨u', hu', -⟩ := mem_dedupeAux seen rest hb
      have hga : goodUrl a = none := by simp [goodUrl, h]
      have hne : goodUrl a ≠ goodUrl b := by rw [hga, hu']; simp
      rw [List.find?_cons_of_neg _ (by simpa using hne)]
      exact ih seen hb
    | some u =>
      simp only [dedupeAux, h] at hb
      by_cases hc : u ≠ "" ∧ u ∉ seen
      · rw [if_pos hc] at hb
        rcases List.mem_cons.mp hb with rfl | hb'
        · exact List.find?_cons_of_pos _ (by simp)
        · obtain ⟨u', hu', hn'⟩ := mem_dedupeAux (u :: seen) rest hb'
          have huu' : u' ≠ u := fun e => hn' (e ▸ List.mem_cons_self u seen)
          have hga : goodUrl a = some u := by simp [goodUrl, h, hc.1]
          have hne : goodUrl a ≠ goodUrl b := by
            rw [hga, hu']
            exact fun e => huu' (Option.some.inj e).symm
          rw [List.find?_cons_of_neg _ (by simpa using hne)]
          exact ih (u :: seen) hb'
      · rw [if_neg hc] at hb
        obtain ⟨u', hu', hn'⟩ := mem_dedupeAux seen rest hb
        by_cases hu : u = ""
        · have hga : goodUrl a = none := by simp [goodUrl, h, hu]
          have hne : goodUrl a ≠ goodUrl b := by rw [hga, hu']; simp
          rw [List.find?_cons_of_neg _ (by simpa using hne)]
          exact ih seen hb
        · have hmem : u ∈ seen := by
            rcases Decidable.not_and_iff_or_not.mp hc with h1 | h2
            · exact absurd hu (by simpa using h1)
            · simpa using h2
          have huu' : u' ≠ u := fun e => hn' (e ▸ hmem)
          have hga : goodUrl a = some u := by simp [goodUrl, h, hu]
          have hne : goodUrl a ≠ goodUrl b := by
            rw [hga, hu']
            exact fun e => huu' (Option.some.inj e).symm
          rw [List.find?_cons_of_neg _ (by simpa using hne)]
          exact ih seen hb

/-- The deduplication loop emits one article per distinct truthy url not
already in the seen set. -/
theorem dedupeAux_length (seen : List String) (l : List Article) :
    (dedupeAux seen l).length
      = ((l.filterMap goodUrl).toFinset \ seen.toFinset).card := by
  induction l generalizing seen with
  | nil => simp [dedupeAux]
  | cons a rest ih =>
    cases h : a.url with
    | none =>
      have hg : goodUrl a = none := by simp [goodUrl, h]
      simp only [dedupeAux, h, List.filterMap_cons, hg]
      exact ih seen
    | some u =>
      by_cases hu : u = ""
      · have hg : goodUrl a = none := by simp [goodUrl, h, hu]
        have hcond : ¬(u ≠ "" ∧ u ∉ seen) := by simp [hu]
        simp only [dedupeAux, h, if_neg hcond, List.filterMap_cons, hg]
        exact ih seen
      · have hg : goodUrl a = some u := by simp [goodUrl, h, hu]
        by_cases hs : u ∈ seen
        · have hcond : ¬(u ≠ "" ∧ u ∉ seen) := by simp [hs]
          simp only [dedupeAux, h, if_neg hcond, List.filterMap_cons, hg]
          rw [ih seen, List.toFinset_cons,
            Finset.insert_sdiff_of_mem _ (List.mem_toFinset.mpr hs)]
        · have hcond : u ≠ "" ∧ u ∉ seen := ⟨hu, hs⟩
          simp only [dedupeAux, h, if_pos hcond, List.filterMap_cons, hg,
            List.length_cons]
          rw [ih (u :: seen), List.toFinset_cons, List.toFinset_cons]
          have hus : u ∉ seen.toFinset := by simpa using hs
          rw [Finset.sdiff_insert]
          have hins : insert u (rest.filterMap goodUrl).toFinset \ seen.toFinset
              = insert u ((rest.filterMap goodUrl).toFinset \ seen.toFinset) := by
            ext x
            simp only [Finset.mem_insert, Finset.mem_sdiff]
            constructor
            · rintro ⟨(rfl | hx), hnx⟩
              · exact Or.inl rfl
              · exact Or.inr ⟨hx, hnx⟩
            · rintro (rfl | ⟨hx, hnx⟩)
              · exact ⟨Or.inl rfl, hus⟩
              · exact ⟨Or.inr hx, hnx⟩
          rw [hins]
          by_cases hmem : u ∈ (rest.filterMap goodUrl).toFinset \ seen.toFinset
          · rw [Finset.card_insert_of_mem hmem, ← Finset.card_erase_add_one hmem]
          · rw [Finset.card_insert_of_not_mem hmem, Finset.erase_eq_of_not_mem hmem]

/-- C9: deduplication preserves the input's relative order (the output is
a sublist of the input), every output article is the first occurrence of
its url in the input, and the output length is exactly the number of
distinct (present, non-empty) urls in the input. -/
theorem deduplicate_spec :
    ∀ l : List Article,
      List.Sublist (deduplicate l) l
      ∧ (∀ a ∈ deduplicate l,
          l.find? (fun b => decide (goodUrl b = goodUrl a)) = some a)
      ∧ (deduplicate l).length = (l.filterMap goodUrl).toFinset.card := by
  intro l
  refine ⟨dedupeAux_sublist [] l, fun a ha => dedupeAux_find? [] l ha, ?_⟩
  simpa using dedupeAux_length [] l

/-- C9 witness: on a concrete three-article input with a duplicated url,
the first occurrence is what deduplication keeps. -/
theorem deduplicate_spec_witness :
    List.find?
        (fun b => decide (goodUrl b = goodUrl (mkArticle ("https://a.com/1"))))
        [mkArticle ("https://a.com/1"), mkArticle ("https://a.com/1"),
          mkArticle ("https://b.com/2")]
      = some (mkArticle ("https://a.com/1")) :=
  (deduplicate_spec
      [mkArticle ("https://a.com/1"), mkArticle ("https://a.com/1"),
        mkArticle ("https://b.com/2")]).2.1
    (mkArticle ("https://a.com/1")) (by decide)

/-- Domain filtering and URL deduplication commute: the retention test
depends only on the url, so it drops a whole url class before or after
deduplication with the same result.  The seen sets on the two sides need
only agree on urls that pass the domain test. -/
theorem dedupeAux_filterLoop_comm (trusted : List String) (l : List Article)
    (seen seen' : List String)
    (h : ∀ u : String, stripWww (netloc u) ∈ trusted → (u ∈ seen ↔ u ∈ seen')) :
    dedupeAux seen (filterLoop trusted l) = filterLoop trusted (dedupeAux seen' l) := by
  induction l generalizing seen seen' with
  | nil => simp [filterLoop, dedupeAux]
  | cons a rest ih =>
    cases hurl : a.url with
    | none =>
      simp only [filterLoop, dedupeAux, hurl]
      exact ih seen seen' h
    | some u =>
      by_cases hu : u = ""
      · simp only [filterLoop, dedupeAux, hurl]
        rw [if_neg (by simp [hu]), if_neg (by simp [hu])]
        exact ih seen seen' h
      · by_cases hp : stripWww (netloc u) ∈ trusted
        · by_cases hs : u ∈ seen
          · have hs' : u ∈ seen' := (h u hp).mp hs
            simp only [filterLoop, dedupeAux, hurl]
            rw [if_pos hu, if_pos hp]
            simp only [dedupeAux, hurl]
            rw [if_neg (by simp [hs]), if_neg (by simp [hs'])]
            exact ih seen seen' h
          · have hs' : u ∉ seen' := fun hx => hs ((h u hp).mpr hx)
            simp only [filterLoop, dedupeAux, hurl]
            rw [if_pos hu, if_pos hp]
            simp only [dedupeAux, hurl]
            rw [if_pos ⟨hu, hs⟩, if_pos ⟨hu, hs'⟩]
            simp only [filterLoop, hurl]
            rw [if_pos hu, if_pos hp]
            refine congrArg (a :: ·) (ih (u :: seen) (u :: seen') ?_)
            intro v hv
            simp only [List.mem_cons]
            rw [h v hv]
        · simp only [filterLoop, dedupeAux, hurl]
          rw [if_pos hu, if_neg hp]
          by_cases hs' : u ∈ seen'
          · rw [if_neg (by simp [hs'])]
            exact ih seen seen' h
          · rw [if_pos ⟨hu, hs'⟩]
            simp only [filterLoop, hurl]
            rw [if_pos hu, if_neg hp]
            refine ih seen (u :: seen') ?_
            intro v hv
            have hvu : v ≠ u := fun e => hp (e ▸ hv)
            simp only [List.mem_cons, hvu, false_or]
            exact h v hv

/-- C3: the collector's result equals the spec's description — merge the
per-query lists in query order, deduplicate keeping first occurrences by
exact URL, then filter by trusted domain only when a non-empty trusted
set is configured, the deduplicated list passing through unchanged
otherwise — even though the source applies the domain filter before
deduplicating. -/
theorem search_news_matches_spec_order :
    ∀ (perQueryResults : List (List Article)) (trusted : List String),
      search_news perQueryResults trusted
        = search_news_spec_order perQueryResults trusted := by
  intro pq trusted
  unfold search_news search_news_spec_order filter_by_domain deduplicate
  by_cases h : trusted = []
  · simp [h]
  · rw [if_neg h, if_neg h]
    exact dedupeAux_filterLoop_comm trusted pq.flatten [] [] (fun u _ => Iff.rfl)

/-- C4: when the scoring call fails or its reply cannot be parsed, the
processor does not abort: the article list keeps its original order
unscored, and generation receives exactly the first limit elements of
that original-order list. -/
theorem scoring_failure_fallback :
    ∀ (gen : List Article → Option NewsletterData) (articles : List Article) (limit : Nat),
      score_articles none articles = articles
      ∧ (articles ≠ [] → limit ≠ 0 →
          process_articles none gen articles limit = gen (articles.take limit)) := by
  intro gen articles limit
  refine ⟨rfl, fun hA hL => ?_⟩
  have hne : articles.take limit ≠ [] := by
    simp [List.take_eq_nil_iff, hA, hL]
  unfold process_articles
  rw [if_neg hA]
  have hs : score_articles none articles = articles := rfl
  rw [hs, if_neg hne]

/-- C4 witness: a failed scoring call on two concrete articles with
limit 1 hands exactly the first article, in original order, to the
generation stage. -/
theorem scoring_failure_fallback_witness :
    process_articles none genCapture
        [mkArticle ("https://a.com/1"), mkArticle ("https://b.com/2")] 1
      = genCapture ([mkArticle ("https://a.com/1"), mkArticle ("https://b.com/2")].take 1) :=
  (scoring_failure_fallback genCapture
      [mkArticle ("https://a.com/1"), mkArticle ("https://b.com/2")] 1).2
    (by decide) (by decide)

/-- C5: the ranked list used by the processor is a permutation of its
input, sorted so scores never increase along it, stable (two articles
already in the right score order — in particular, equal scores — keep
their relative order), and truncation to limit keeps exactly
min limit n elements; the some-reply branch of the scorer is precisely
this ranking applied after the index merge. -/
theorem ranking_stable_desc_truncate :
    ∀ (l : List Article) (limit : Nat),
      (∀ entries, score_articles (some entries) l = rankArticles (applyScores entries l))
      ∧ List.Perm (rankArticles l) l
      ∧ (rankArticles l).Pairwise (fun a b => getScore b ≤ getScore a)
      ∧ (∀ a b : Article, getScore b ≤ getScore a →
          List.Sublist [a, b] l → List.Sublist [a, b] (rankArticles l))
      ∧ ((rankArticles l).take limit).length = min limit l.length := by
  intro l limit
  have htrans : ∀ a b c : Article, scoreLe a b → scoreLe b c → scoreLe a c := by
    intro a b c hab hbc
    simp only [scoreLe, decide_eq_true_eq] at *
    exact le_trans hbc hab
  have htotal : ∀ a b : Article, scoreLe a b || scoreLe b a := by
    intro a b
    simp only [scoreLe, Bool.or_eq_true, decide_eq_true_eq]
    exact le_total (getScore b) (getScore a)
  refine ⟨fun entries => rfl, List.mergeSort_perm l scoreLe, ?_, ?_, ?_⟩
  · exact (List.sorted_mergeSort htrans htotal l).imp
      (by intro a b h; simpa [scoreLe] using h)
  · intro a b hab hsub
    exact List.pair_sublist_mergeSort htrans htotal
      (by simp only [scoreLe, decide_eq_true_eq]; exact hab) hsub
  · simp [rankArticles]

/-- C5 witness: on the spec's example — scores 9, 3, 9 in that order —
the two score-9 articles keep their original relative order in the ranked
output. -/
theorem ranking_stable_desc_truncate_witness :
    List.Sublist [mkScored ("s0") 9, mkScored ("s2") 9]
      (rankArticles [mkScored ("s0") 9, mkScored ("s1") 3, mkScored ("s2") 9]) :=
  (ranking_stable_desc_truncate
      [mkScored ("s0") 9, mkScored ("s1") 3, mkScored ("s2") 9] 5).2.2.2.1
    (mkScored ("s0") 9) (mkScored ("s2") 9) (by decide)
    ((List.nil_sublist _).cons₂ _ |>.cons _ |>.cons₂ _)

/-- The merge loop step never changes the number of articles. -/
theorem applyEntry_length (arts : List Article) (e : ScoreEntry) :
    (applyEntry arts e).length = arts.length := by
  unfold applyEntry
  split
  · split
    · simp
    · rfl
  · rfl

/-- The merge loop step leaves every index other than the entry's own
untouched. -/
theorem applyEntry_untouched (arts : List Article) (e : ScoreEntry) (i : Nat)
    (h : e.id ≠ (i : Int)) : (applyEntry arts e)[i]? = arts[i]? := by
  unfold applyEntry
  split
  · rename_i hc
    split
    · have hne : e.id.toNat ≠ i := by
        intro heq
        apply h
        rw [← heq]
        exact (Int.toNat_of_nonneg hc.1).symm
      exact List.getElem?_set_ne hne
    · rfl
  · rfl

/-- The whole merge loop leaves an article untouched when no entry names
its index. -/
theorem applyScores_untouched (entries : List ScoreEntry) (arts : List Article) (i : Nat)
    (h : ∀ e ∈ entries, e.id ≠ (i : Int)) :
    (applyScores entries arts)[i]? = arts[i]? := by
  induction entries generalizing arts with
  | nil => rfl
  | cons e es ih =>
    calc (applyScores (e :: es) arts)[i]?
        = (applyScores es (applyEntry arts e))[i]? := rfl
      _ = (applyEntry arts e)[i]? :=
          ih _ (fun e' he' => h e' (List.mem_cons_of_mem _ he'))
      _ = arts[i]? := applyEntry_untouched arts e i (h e (List.mem_cons_self e es))

/-- An in-range entry writes its score (default 0) and reason (default
empty) onto the article at its index. -/
theorem applyEntry_merge (arts : List Article) (e : ScoreEntry)
    (h0 : 0 ≤ e.id) (h1 : e.id < (arts.length : Int)) :
    (applyEntry arts e)[e.id.toNat]?
      = (arts[e.id.toNat]?).map
          (fun a => { a with score := some (e.score.getD 0),
                             reason := some (e.reason.getD "") }) := by
  unfold applyEntry
  rw [if_pos ⟨h0, h1⟩]
  have hlt : e.id.toNat < arts.length := by omega
  cases hx : arts[e.id.toNat]? with
  | some a =>
    exact List.getElem?_set_self hlt
  | none =>
    exact absurd (List.getElem?_eq_none_iff.mp hx) (by omega)

/-- C8: an out-of-range score entry has no effect on the article list; an
in-range entry is merged onto the article at its index (score defaulting
to 0, reason to the empty string); an article named by no entry of the
reply is untouched, and when it carried no score key its sort key is 0. -/
theorem score_merge_by_index :
    ∀ arts : List Article,
      (∀ e : ScoreEntry, ¬(0 ≤ e.id ∧ e.id < (arts.length : Int)) →
          applyEntry arts e = arts)
      ∧ (∀ e : ScoreEntry, 0 ≤ e.id → e.id < (arts.length : Int) →
          (applyEntry arts e)[e.id.toNat]?
            = (arts[e.id.toNat]?).map
                (fun a => { a with score := some (e.score.getD 0),
                                   reason := some (e.reason.getD "") }))
      ∧ (∀ (entries : List ScoreEntry) (i : Nat),
          (∀ e ∈ entries, e.id ≠ (i : Int)) →
          (applyScores entries arts)[i]? = arts[i]?)
      ∧ (∀ (entries : List ScoreEntry) (i : Nat) (a : Article),
          (∀ e ∈ entries, e.id ≠ (i : Int)) → arts[i]? = some a → a.score = none →
          ((applyScores entries arts)[i]?).map getScore = some 0) := by
  intro arts
  refine ⟨fun e h => ?_, fun e h0 h1 => applyEntry_merge arts e h0 h1,
    fun entries i h => applyScores_untouched entries arts i h,
    fun entries i a h ha hsc => ?_⟩
  · unfold applyEntry
    rw [if_neg h]
  · rw [applyScores_untouched entries arts i h, ha]
    simp [getScore, hsc]

/-- C8 witness: a reply whose only entry has id 5 leaves the single
article of a one-element list untouched, and its sort key is 0. -/
theorem score_merge_by_index_witness :
    ((applyScores [{ id := 5, score := some 3, reason := none }]
        [mkArticle ("https://a.com/1")])[0]?).map getScore = some 0 :=
  (score_merge_by_index [mkArticle ("https://a.com/1")]).2.2.2
    [{ id := 5, score := some 3, reason := none }] 0 (mkArticle ("https://a.com/1"))
    (by decide) (by decide) (by decide)

/-- C7: send_newsletter reports failure and performs no outbound delivery
call whenever the sender is unset (or empty), the recipient list is
empty, or the content lacks the top_stories field — regardless of what
the provider would have answered. -/
theorem send_newsletter_preconditions :
    ∀ (fromEmail : Option String) (toEmails : List String) (d : NewsletterData)
      (providerResult : Except PyExn String),
      (¬ truthy fromEmail ∨ toEmails = [] ∨ d.topStories = none) →
      send_newsletter fromEmail toEmails d providerResult = (false, 0) := by
  intro f t d p h
  unfold send_newsletter
  rcases h with h | h | h
  · rw [if_pos (Or.inl h)]
  · rw [if_pos (Or.inr h)]
  · by_cases hft : ¬ truthy f ∨ t = []
    · rw [if_pos hft]
    · rw [if_neg hft, if_pos h]

/-- C7 witness: with a valid sender, content that has top_stories, and a
provider that would succeed, an empty recipient list alone yields failure
with zero outbound calls. -/
theorem send_newsletter_preconditions_witness :
    send_newsletter (some ("bot@example.com")) []
        { openingHook := none, topStories := some [], toolOfTheDay := none,
          closingThought := none, originalArticles := none }
        (Except.ok ("msg-1"))
      = (false, 0) :=
  send_newsletter_preconditions (some ("bot@example.com")) []
    { openingHook := none, topStories := some [], toolOfTheDay := none,
      closingThought := none, originalArticles := none }
    (Except.ok ("msg-1")) (Or.inr (Or.inl rfl))

/-- C2 counterexample: the claim fails in preview mode.  A collector
exception other than ValueError propagates out of test_run, and main's
handler (which catches only ValueError) lets it crash the process. -/
theorem preview_exception_uncaught_cex :
    main_with (test_run (Except.error (PyExn.other ("connection reset"))) procNone)
      = MainOutcome.crashed (PyExn.other ("connection reset")) := rfl

/-- C2 amended: in delivery mode any exception from the stages is caught
at the top level and reported as failure (run_newsletter returns false
whenever its body raised, in particular on a collector exception); in
preview mode there is no such handler — test_run propagates a collector
exception, and main crashes on it unless it is a ValueError, which exits
nonzero as a configuration error. -/
theorem pipeline_exception_handling :
    ∀ (collect : Except PyExn (List Article))
      (proc : List Article → Except PyExn (Option NewsletterData))
      (send : NewsletterData → Except PyExn Bool) (e : PyExn),
      ((run_newsletter_body collect proc send).isOk = false →
        run_newsletter collect proc send = false)
      ∧ run_newsletter (Except.error e) proc send = false
      ∧ test_run (Except.error e) proc = Except.error e
      ∧ (isValueError e = false →
          main_with (test_run (Except.error e) proc) = MainOutcome.crashed e)
      ∧ (∀ m : String, main_with (test_run (Except.error (PyExn.valueError m)) proc)
          = MainOutcome.exitedNonZero) := by
  intro collect proc send e
  refine ⟨?_, rfl, rfl, fun hv => ?_, fun m => rfl⟩
  · intro h
    unfold run_newsletter
    cases hb : run_newsletter_body collect proc send with
    | ok b => rw [hb] at h; exact Bool.noConfusion h
    | error e' => rfl
  · have hm : main_with (test_run (Except.error e) proc)
        = if isValueError e then MainOutcome.exitedNonZero else MainOutcome.crashed e := rfl
    rw [hm, hv]
    rfl

/-- C2 witness for the amended claim: at a concrete non-ValueError
collector exception, delivery mode returns false while preview mode
crashes the process. -/
theorem pipeline_exception_handling_witness :
    run_newsletter (Except.error (PyExn.other ("boom"))) procNone
        (fun _ => Except.ok true) = false
      ∧ main_with (test_run (Except.error (PyExn.other ("boom"))) procNone)
        = MainOutcome.crashed (PyExn.other ("boom")) := by
  have h := pipeline_exception_handling (Except.error (PyExn.other ("boom")))
    procNone (fun _ => Except.ok true) (PyExn.other ("boom"))
  exact ⟨h.1 rfl, h.2.2.2.1 rfl⟩

end NewsBot
